import Mathlib

/-!
Shallow embedding of the St. Mark pantry recurring-schedule core:
the date/slot utilities and recurring-pattern matcher (src/utils/dateHelpers.ts,
whose current content is packed inside src/src/main.tsx), the schedule
resolver `getVolunteersForDate` (src/src/components/volunteers/VolunteerSchedule.tsx),
the calendar counter `getVolunteerCount`
(src/src/components/volunteers/VolunteerCalendar.tsx), and the signup-ledger
mutations `handleSignup` / `excuseRecurring`.

Modelling conventions:
* ISO `YYYY-MM-DD` strings are modelled by their parsed form `DateYMD`
  (the code always produces canonical zero-padded strings via `formatISODate`,
  so string equality coincides with `DateYMD` equality).
* JavaScript's `Date.getDay` / `Intl` weekday name on a local calendar date is
  modelled by the standard days-from-civil weekday computation (`dayOfWeekNum`,
  0 = Sunday .. 6 = Saturday), matching the proleptic Gregorian calendar.
* TypeScript optional array fields (`recurringSlots?`, `recurringDays?`) are
  modelled as plain lists, `undefined ↦ []`: the code only tests
  `arr && arr.length > 0`, which identifies `undefined` with `[]`.
* `String.prototype.localeCompare` is environment-dependent, so the resolver is
  parametrised by an abstract comparator `cmp : String → String → Ordering`;
  `Array.prototype.sort` (stable per ECMA-262) is modelled by `List.mergeSort`.
-/

namespace Pantry

/-- `type PantryDay = 'Monday' | 'Friday' | 'Saturday'` (src/src/types). -/
inductive PantryDay where
  | Monday
  | Friday
  | Saturday
deriving DecidableEq, Repr

/-- The weekday string used when a `PantryDay` is interpolated into a template,
as in `` `every-${dayOfWeek}` ``. -/
def PantryDay.name : PantryDay → String
  | .Monday => "Monday"
  | .Friday => "Friday"
  | .Saturday => "Saturday"

/-- `status: 'signed-up' | 'cancelled'` on `VolunteerSignup`. -/
inductive SignupStatus where
  | signedUp
  | cancelled
deriving DecidableEq, Repr

/-- A parsed `YYYY-MM-DD` local calendar date (the result of `parseLocalDate`). -/
structure DateYMD where
  year : Nat
  month : Nat
  day : Nat
deriving DecidableEq, Repr

/-- Days elapsed since 0000-03-01 in the proleptic Gregorian calendar
(days-from-civil), for dates with year ≥ 1. -/
def dayNumber (d : DateYMD) : Nat :=
  let y := if d.month ≤ 2 then d.year - 1 else d.year
  let mp := if d.month ≤ 2 then d.month + 9 else d.month - 3
  365 * y + y / 4 - y / 100 + y / 400 + (153 * mp + 2) / 5 + (d.day - 1)

/-- JavaScript `Date.prototype.getDay` on the local date:
0 = Sunday, 1 = Monday, …, 6 = Saturday. 0000-03-01 was a Wednesday (3). -/
def dayOfWeekNum (d : DateYMD) : Nat :=
  (dayNumber d + 3) % 7

/-- `Intl.DateTimeFormat('en-US', { weekday: 'long' }).format(d)`:
the long English weekday name of the date. -/
def dayName (d : DateYMD) : String :=
  match dayOfWeekNum d with
  | 0 => "Sunday"
  | 1 => "Monday"
  | 2 => "Tuesday"
  | 3 => "Wednesday"
  | 4 => "Thursday"
  | 5 => "Friday"
  | 6 => "Saturday"
  | _ => "Invalid"

/-- `getOrdinalWeek(date) = Math.ceil(date.getDate() / 7)` (dateHelpers):
which occurrence (1-5) of its weekday the date is within its month.
`(day + 6) / 7` is ceiling division for natural numbers. -/
def getOrdinalWeek (d : DateYMD) : Nat :=
  (d.day + 6) / 7

/-- `const ORDINAL_LABELS = ['1st', '2nd', '3rd', '4th', '5th']` (dateHelpers). -/
def ORDINAL_LABELS : List String :=
  ["1st", "2nd", "3rd", "4th", "5th"]

/-- `getRecurringSlot(iso)` (dateHelpers): `` `${ORDINAL_LABELS[ordinal - 1]}-${dayName}` ``.
An out-of-range index would interpolate as the string "undefined" in JS. -/
def getRecurringSlot (d : DateYMD) : String :=
  (ORDINAL_LABELS.getD (getOrdinalWeek d - 1) "undefined") ++ "-" ++ dayName d

/-- `isPantryDay(date)` in the current dateHelpers:
`dayName === 'Monday' || dayName === 'Friday' || dayName === 'Saturday'`. -/
def isPantryDay (d : DateYMD) : Bool :=
  dayName d == "Monday" || dayName d == "Friday" || dayName d == "Saturday"

/-- `matchesRecurringSlot(recurringSlots, recurringDays, iso, dayOfWeek)` (dateHelpers):
slots take precedence when non-empty (ordinal slot or `every-<weekday>`),
otherwise fall back to legacy `recurringDays`, otherwise no match. -/
def matchesRecurringSlot (recurringSlots : List String) (recurringDays : List PantryDay)
    (d : DateYMD) (dayOfWeek : PantryDay) : Bool :=
  if recurringSlots.length > 0 then
    recurringSlots.contains (getRecurringSlot d)
      || recurringSlots.contains ("every-" ++ dayOfWeek.name)
  else if recurringDays.length > 0 then
    recurringDays.contains dayOfWeek
  else
    false

/-- `interface Volunteer` (src/src/types); only fields read by the scheduling
core are carried (`phone`/`email`/`notes` are never consulted by it). -/
structure Volunteer where
  id : String
  firstName : String
  lastName : String
  recurringDays : List PantryDay
  recurringSlots : List String
  createdAt : String
deriving DecidableEq, Repr

/-- `interface VolunteerSignup` (src/src/types). -/
structure VolunteerSignup where
  id : String
  volunteerId : String
  date : DateYMD
  dayOfWeek : PantryDay
  role : Option String
  status : SignupStatus
  createdAt : String
deriving DecidableEq, Repr

/-- The `source` tag of a `ScheduledVolunteer` entry. -/
inductive Source where
  | recurring
  | signup
deriving DecidableEq, Repr

/-- `interface ScheduledVolunteer` (VolunteerSchedule.tsx). -/
structure ScheduledVolunteer where
  volunteer : Volunteer
  source : Source
  signupId : Option String := none
  role : Option String := none
deriving DecidableEq, Repr

/-- The `cancelledIds` set of `getVolunteersForDate` / `getVolunteerCount`:
volunteer ids having a signup record for this exact date with status cancelled. -/
def cancelledIdsFor (date : DateYMD) (allSignups : List VolunteerSignup) : List String :=
  (allSignups.filter (fun s => s.date == date && s.status == SignupStatus.cancelled)).map
    (fun s => s.volunteerId)

/-- The recurring-pass condition shared verbatim by `getVolunteersForDate` and
`getVolunteerCount`:
`matchesRecurringSlot(v.recurringSlots, v.recurringDays, date, dayOfWeek) && !cancelledIds.has(v.id)`. -/
def recurringCond (date : DateYMD) (dayOfWeek : PantryDay)
    (allSignups : List VolunteerSignup) (v : Volunteer) : Bool :=
  matchesRecurringSlot v.recurringSlots v.recurringDays date dayOfWeek
    && !((cancelledIdsFor date allSignups).contains v.id)

/-- The recurring-volunteers pass of `getVolunteersForDate` (step 2 of the
resolver): every volunteer whose pattern matches the date and who is not
cancelled for it, tagged `source = recurring`. The loop body's condition does
not depend on the accumulator, so the loop is a filter-then-map. -/
def recurringEntries (date : DateYMD) (dayOfWeek : PantryDay)
    (volunteers : List Volunteer) (allSignups : List VolunteerSignup) :
    List ScheduledVolunteer :=
  (volunteers.filter (recurringCond date dayOfWeek allSignups)).map
    (fun v => { volunteer := v, source := Source.recurring })

/-- The one-off-signups loop of `getVolunteersForDate` (step 3): walk the
signup records carrying the `addedIds` set; a `signed-up` record for this date
whose volunteer is not yet included is joined against the volunteer list and,
when the join succeeds, contributes an entry tagged `source = signup`. -/
def signupEntriesAux (date : DateYMD) (volunteers : List Volunteer) :
    List VolunteerSignup → List String → List ScheduledVolunteer
  | [], _ => []
  | s :: rest, added =>
    if s.date == date && s.status == SignupStatus.signedUp && !(added.contains s.volunteerId) then
      match volunteers.find? (fun v => v.id == s.volunteerId) with
      | some v =>
          { volunteer := v, source := Source.signup, signupId := some s.id, role := s.role }
            :: signupEntriesAux date volunteers rest (added ++ [v.id])
      | none => signupEntriesAux date volunteers rest added
    else
      signupEntriesAux date volunteers rest added

/-- The `result` array of `getVolunteersForDate` just before the final sort:
recurring entries (step 2) followed by signup entries (step 3). -/
def scheduleEntries (date : DateYMD) (dayOfWeek : PantryDay)
    (volunteers : List Volunteer) (allSignups : List VolunteerSignup) :
    List ScheduledVolunteer :=
  let recs := recurringEntries date dayOfWeek volunteers allSignups
  recs ++ signupEntriesAux date volunteers allSignups (recs.map (fun e => e.volunteer.id))

/-- `getVolunteersForDate` (VolunteerSchedule.tsx): the merge of recurring
matches and one-off signups, sorted by
`a.volunteer.lastName.localeCompare(b.volunteer.lastName)`. `localeCompare`
is modelled by the abstract comparator `cmp`; `Array.prototype.sort` (stable)
by `List.mergeSort`. -/
def getVolunteersForDate (cmp : String → String → Ordering) (date : DateYMD)
    (dayOfWeek : PantryDay) (volunteers : List Volunteer)
    (allSignups : List VolunteerSignup) : List ScheduledVolunteer :=
  (scheduleEntries date dayOfWeek volunteers allSignups).mergeSort
    (fun a b => !(cmp a.volunteer.lastName b.volunteer.lastName == Ordering.gt))

/-- JavaScript `Set.prototype.add` on a set represented as its insertion-ordered
list of distinct elements. -/
def setAdd (l : List String) (x : String) : List String :=
  if l.contains x then l else l ++ [x]

/-- The recurring pass of the calendar's `getVolunteerCount`
(VolunteerCalendar.tsx): `addedIds` after adding every matching, non-cancelled
volunteer's id. -/
def recurringIdSet (date : DateYMD) (dayOfWeek : PantryDay)
    (volunteers : List Volunteer) (signups : List VolunteerSignup) : List String :=
  volunteers.foldl
    (fun acc v => if recurringCond date dayOfWeek signups v then setAdd acc v.id else acc)
    []

/-- The explicit-signups pass of `getVolunteerCount`: unlike the schedule view,
it adds `s.volunteerId` without joining against the volunteer list. -/
def countSignupAux (date : DateYMD) :
    List VolunteerSignup → List String → List String
  | [], added => added
  | s :: rest, added =>
    if s.date == date && s.status == SignupStatus.signedUp && !(added.contains s.volunteerId) then
      countSignupAux date rest (added ++ [s.volunteerId])
    else
      countSignupAux date rest added

/-- `getVolunteerCount` (VolunteerCalendar.tsx): `addedIds.size` after both
passes. -/
def getVolunteerCount (date : DateYMD) (dayOfWeek : PantryDay)
    (volunteers : List Volunteer) (signups : List VolunteerSignup) : Nat :=
  (countSignupAux date signups (recurringIdSet date dayOfWeek volunteers signups)).length

/-- The compound-key lookup
`db.volunteerSignups.where('[volunteerId+date]').equals([vid, date]).first()`. -/
def findByKey (l : List VolunteerSignup) (vid : String) (date : DateYMD) :
    Option VolunteerSignup :=
  l.find? (fun s => s.volunteerId == vid && s.date == date)

/-- `db.volunteerSignups.update(id, { status })`: update the record with the
given primary key in place, touching only `status`. -/
def updateStatus (l : List VolunteerSignup) (recId : String) (st : SignupStatus) :
    List VolunteerSignup :=
  l.map (fun s => if s.id == recId then { s with status := st } else s)

/-- The ledger effect of `handleSignup` (VolunteerSchedule.tsx): look up the
existing record by (volunteerId, date); flip it to `signed-up` when found,
otherwise insert a fresh `signed-up` record. -/
def handleSignupLedger (l : List VolunteerSignup) (vid : String) (date : DateYMD)
    (dayOfWeek : PantryDay) (role : Option String) (newId : String)
    (createdAt : String) : List VolunteerSignup :=
  match findByKey l vid date with
  | some existing => updateStatus l existing.id SignupStatus.signedUp
  | none =>
      l ++ [{ id := newId, volunteerId := vid, date := date, dayOfWeek := dayOfWeek,
              role := role, status := SignupStatus.signedUp, createdAt := createdAt }]

/-- The ledger effect of `excuseRecurring` (VolunteerSchedule.tsx): look up the
existing record by (volunteerId, date); flip it to `cancelled` when found,
otherwise insert a fresh `cancelled` record (with no role). -/
def excuseRecurringLedger (l : List VolunteerSignup) (vid : String) (date : DateYMD)
    (dayOfWeek : PantryDay) (newId : String) (createdAt : String) :
    List VolunteerSignup :=
  match findByKey l vid date with
  | some existing => updateStatus l existing.id SignupStatus.cancelled
  | none =>
      l ++ [{ id := newId, volunteerId := vid, date := date, dayOfWeek := dayOfWeek,
              role := none, status := SignupStatus.cancelled, createdAt := createdAt }]

/-- The spec's ledger invariant: at most one signup record per
(volunteerId, date) compound key. -/
def KeyUnique (l : List VolunteerSignup) : Prop :=
  l.Pairwise (fun a b => ¬(a.volunteerId = b.volunteerId ∧ a.date = b.date))

/-- A concrete consistent comparator (compare by length), used to instantiate
the abstract `localeCompare` parameter in witnesses and counterexamples. -/
def lenCmp (a b : String) : Ordering :=
  compare a.length b.length

/-! ### Membership characterizations of the resolver passes -/

theorem mem_cancelledIdsFor {date : DateYMD} {ss : List VolunteerSignup} {x : String} :
    x ∈ cancelledIdsFor date ss ↔
      ∃ s ∈ ss, s.volunteerId = x ∧ s.date = date ∧ s.status = SignupStatus.cancelled := by
  simp only [cancelledIdsFor, List.mem_map, List.mem_filter, Bool.and_eq_true, beq_iff_eq]
  aesop

theorem mem_recurringEntries {date : DateYMD} {dayOfWeek : PantryDay}
    {volunteers : List Volunteer} {allSignups : List VolunteerSignup}
    {e : ScheduledVolunteer} :
    e ∈ recurringEntries date dayOfWeek volunteers allSignups ↔
      ∃ v, v ∈ volunteers
        ∧ matchesRecurringSlot v.recurringSlots v.recurringDays date dayOfWeek = true
        ∧ v.id ∉ cancelledIdsFor date allSignups
        ∧ e = { volunteer := v, source := Source.recurring } := by
  simp only [recurringEntries, recurringCond, List.mem_map, List.mem_filter,
    Bool.and_eq_true, Bool.not_eq_true', List.contains, List.elem_eq_mem,
    decide_eq_false_iff_not]
  aesop

theorem of_mem_signupEntriesAux {date : DateYMD} {volunteers : List Volunteer} :
    ∀ {ss : List VolunteerSignup} {added : List String} {e : ScheduledVolunteer},
      e ∈ signupEntriesAux date volunteers ss added →
      e.source = Source.signup ∧ e.volunteer ∈ volunteers ∧
        ∃ s ∈ ss, s.date = date ∧ s.status = SignupStatus.signedUp
          ∧ e.volunteer.id = s.volunteerId
  | [], _, _, h => by simp [signupEntriesAux] at h
  | s :: rest, added, e, h => by
    rw [signupEntriesAux] at h
    by_cases hc : (s.date == date && s.status == SignupStatus.signedUp
        && !(added.contains s.volunteerId)) = true
    · rw [if_pos hc] at h
      simp only [Bool.and_eq_true, beq_iff_eq, Bool.not_eq_true'] at hc
      obtain ⟨⟨hdate, hstatus⟩, -⟩ := hc
      cases hfind : volunteers.find? (fun v => v.id == s.volunteerId) with
      | none =>
        rw [hfind] at h
        obtain ⟨hsrc, hvol, s', hs', hrest⟩ := of_mem_signupEntriesAux h
        exact ⟨hsrc, hvol, s', List.mem_cons_of_mem s hs', hrest⟩
      | some v =>
        rw [hfind] at h
        rcases List.mem_cons.mp h with he | he
        · subst he
          refine ⟨rfl, List.mem_of_find?_eq_some hfind, s, List.mem_cons_self s rest,
            hdate, hstatus, ?_⟩
          have := List.find?_some hfind
          simpa [beq_iff_eq] using this
        · obtain ⟨hsrc, hvol, s', hs', hrest⟩ := of_mem_signupEntriesAux he
          exact ⟨hsrc, hvol, s', List.mem_cons_of_mem s hs', hrest⟩
    · rw [if_neg hc] at h
      obtain ⟨hsrc, hvol, s', hs', hrest⟩ := of_mem_signupEntriesAux h
      exact ⟨hsrc, hvol, s', List.mem_cons_of_mem s hs', hrest⟩

theorem mem_getVolunteersForDate {cmp : String → String → Ordering} {date : DateYMD}
    {dayOfWeek : PantryDay} {volunteers : List Volunteer}
    {allSignups : List VolunteerSignup} {e : ScheduledVolunteer} :
    e ∈ getVolunteersForDate cmp date dayOfWeek volunteers allSignups ↔
      e ∈ scheduleEntries date dayOfWeek volunteers allSignups := by
  simp [getVolunteersForDate, List.mem_mergeSort]

/-! ### C1: cancellation precedence -/

/-- C1 (amended): for a volunteer V of the roster whose recurring pattern
matches date D, if a `cancelled` signup record exists for (V.id, D) and no
`signed-up` record exists for (V.id, D), then V does not appear in
`getVolunteersForDate` for D; and on any date D' that V's pattern matches with
no cancellation record for (V, D'), V appears via the recurring match. -/
theorem C1_cancellation_precedence
    (cmp : String → String → Ordering) (date date' : DateYMD)
    (dow dow' : PantryDay) (volunteers : List Volunteer)
    (signups : List VolunteerSignup) (V : Volunteer) (hV : V ∈ volunteers) :
    (matchesRecurringSlot V.recurringSlots V.recurringDays date dow = true →
      (∃ s ∈ signups, s.volunteerId = V.id ∧ s.date = date
        ∧ s.status = SignupStatus.cancelled) →
      (∀ s ∈ signups, s.volunteerId = V.id → s.date = date →
        s.status ≠ SignupStatus.signedUp) →
      ∀ e ∈ getVolunteersForDate cmp date dow volunteers signups,
        e.volunteer.id ≠ V.id)
    ∧ (matchesRecurringSlot V.recurringSlots V.recurringDays date' dow' = true →
      (∀ s ∈ signups, s.volunteerId = V.id → s.date = date' →
        s.status ≠ SignupStatus.cancelled) →
      ∃ e ∈ getVolunteersForDate cmp date' dow' volunteers signups,
        e.volunteer = V ∧ e.source = Source.recurring) := by
  constructor
  · intro _hmatch hcancel hnosign e he hid
    rw [mem_getVolunteersForDate] at he
    rcases List.mem_append.mp he with hrec | haux
    · obtain ⟨v, -, -, hnotc, hev⟩ := mem_recurringEntries.mp hrec
      apply hnotc
      have hvid : v.id = V.id := by rw [← hid, hev]
      rw [hvid]
      exact mem_cancelledIdsFor.mpr hcancel
    · obtain ⟨-, -, s, hs, hdate, hstatus, hids⟩ := of_mem_signupEntriesAux haux
      exact hnosign s hs (by rw [← hids, hid]) hdate hstatus
  · intro hmatch hnocancel
    have hnotc : V.id ∉ cancelledIdsFor date' signups := by
      intro hc
      obtain ⟨s, hs, hsid, hsdate, hsstatus⟩ := mem_cancelledIdsFor.mp hc
      exact hnocancel s hs hsid hsdate hsstatus
    refine ⟨{ volunteer := V, source := Source.recurring }, ?_, rfl, rfl⟩
    rw [mem_getVolunteersForDate]
    exact List.mem_append.mpr (Or.inl (mem_recurringEntries.mpr ⟨V, hV, hmatch, hnotc, rfl⟩))

/-- C1 as stated is false: with both a `cancelled` and a `signed-up` record for
the same (volunteer, date) — a state the ledger permits, since uniqueness of
the compound key is not database-enforced — the volunteer still appears, via
the signup branch. -/
theorem C1_counterexample :
    matchesRecurringSlot (["every-Monday"] : List String) ([] : List PantryDay)
        ⟨2026, 2, 16⟩ PantryDay.Monday = true
    ∧ (∃ s ∈ ([⟨"s1", "a", ⟨2026, 2, 16⟩, PantryDay.Monday, none, SignupStatus.cancelled, "t1"⟩,
          ⟨"s2", "a", ⟨2026, 2, 16⟩, PantryDay.Monday, some "Setup", SignupStatus.signedUp, "t2"⟩] :
            List VolunteerSignup),
        s.volunteerId = "a" ∧ s.date = ⟨2026, 2, 16⟩ ∧ s.status = SignupStatus.cancelled)
    ∧ ∃ e ∈ getVolunteersForDate lenCmp ⟨2026, 2, 16⟩ PantryDay.Monday
        [⟨"a", "Ann", "Ames", [], ["every-Monday"], "t0"⟩]
        [⟨"s1", "a", ⟨2026, 2, 16⟩, PantryDay.Monday, none, SignupStatus.cancelled, "t1"⟩,
         ⟨"s2", "a", ⟨2026, 2, 16⟩, PantryDay.Monday, some "Setup", SignupStatus.signedUp, "t2"⟩],
        e.volunteer.id = "a" := by
  refine ⟨by decide, by decide, ?_⟩
  unfold getVolunteersForDate
  rw [show scheduleEntries ⟨2026, 2, 16⟩ PantryDay.Monday
      [⟨"a", "Ann", "Ames", [], ["every-Monday"], "t0"⟩]
      [⟨"s1", "a", ⟨2026, 2, 16⟩, PantryDay.Monday, none, SignupStatus.cancelled, "t1"⟩,
       ⟨"s2", "a", ⟨2026, 2, 16⟩, PantryDay.Monday, some "Setup", SignupStatus.signedUp, "t2"⟩]
      = [{ volunteer := ⟨"a", "Ann", "Ames", [], ["every-Monday"], "t0"⟩,
           source := Source.signup, signupId := some "s2", role := some "Setup" }] from by decide]
  rw [List.mergeSort_singleton]
  exact ⟨_, List.mem_cons_self _ _, rfl⟩

/-- C1 witness: a volunteer with slot `every-Monday`, excused (only a
`cancelled` record) for 2026-02-16, is absent that date and still appears on
2026-02-23. -/
theorem C1_witness :
    (∀ e ∈ getVolunteersForDate lenCmp ⟨2026, 2, 16⟩ PantryDay.Monday
        [⟨"a", "Ann", "Ames", [], ["every-Monday"], "t0"⟩]
        [⟨"s1", "a", ⟨2026, 2, 16⟩, PantryDay.Monday, none, SignupStatus.cancelled, "t1"⟩],
        e.volunteer.id ≠ "a")
    ∧ ∃ e ∈ getVolunteersForDate lenCmp ⟨2026, 2, 23⟩ PantryDay.Monday
        [⟨"a", "Ann", "Ames", [], ["every-Monday"], "t0"⟩]
        [⟨"s1", "a", ⟨2026, 2, 16⟩, PantryDay.Monday, none, SignupStatus.cancelled, "t1"⟩],
        e.volunteer = ⟨"a", "Ann", "Ames", [], ["every-Monday"], "t0"⟩
          ∧ e.source = Source.recurring := by
  have h := C1_cancellation_precedence lenCmp ⟨2026, 2, 16⟩ ⟨2026, 2, 23⟩
    PantryDay.Monday PantryDay.Monday
    [⟨"a", "Ann", "Ames", [], ["every-Monday"], "t0"⟩]
    [⟨"s1", "a", ⟨2026, 2, 16⟩, PantryDay.Monday, none, SignupStatus.cancelled, "t1"⟩]
    ⟨"a", "Ann", "Ames", [], ["every-Monday"], "t0"⟩ (by decide)
  exact ⟨h.1 (by decide) (by decide) (by decide), h.2 (by decide) (by decide)⟩

/-! ### C2: no duplicates, recurring precedence -/

theorem signupEntriesAux_cons_true_some {date : DateYMD} {volunteers : List Volunteer}
    {s : VolunteerSignup} {rest : List VolunteerSignup} {added : List String}
    {v : Volunteer}
    (hc : (s.date == date && s.status == SignupStatus.signedUp
      && !(added.contains s.volunteerId)) = true)
    (hfind : volunteers.find? (fun v => v.id == s.volunteerId) = some v) :
    signupEntriesAux date volunteers (s :: rest) added
      = { volunteer := v, source := Source.signup, signupId := some s.id, role := s.role }
          :: signupEntriesAux date volunteers rest (added ++ [v.id]) := by
  rw [signupEntriesAux, if_pos hc, hfind]

theorem signupEntriesAux_cons_true_none {date : DateYMD} {volunteers : List Volunteer}
    {s : VolunteerSignup} {rest : List VolunteerSignup} {added : List String}
    (hc : (s.date == date && s.status == SignupStatus.signedUp
      && !(added.contains s.volunteerId)) = true)
    (hfind : volunteers.find? (fun v => v.id == s.volunteerId) = none) :
    signupEntriesAux date volunteers (s :: rest) added
      = signupEntriesAux date volunteers rest added := by
  rw [signupEntriesAux, if_pos hc, hfind]

theorem signupEntriesAux_cons_false {date : DateYMD} {volunteers : List Volunteer}
    {s : VolunteerSignup} {rest : List VolunteerSignup} {added : List String}
    (hc : ¬ (s.date == date && s.status == SignupStatus.signedUp
      && !(added.contains s.volunteerId)) = true) :
    signupEntriesAux date volunteers (s :: rest) added
      = signupEntriesAux date volunteers rest added := by
  rw [signupEntriesAux, if_neg hc]

theorem signupEntriesAux_ids_nodup {date : DateYMD} {volunteers : List Volunteer} :
    ∀ {ss : List VolunteerSignup} {added : List String},
      ((signupEntriesAux date volunteers ss added).map (fun e => e.volunteer.id)).Nodup
      ∧ ∀ x ∈ (signupEntriesAux date volunteers ss added).map (fun e => e.volunteer.id),
          x ∉ added
  | [], added => by simp [signupEntriesAux]
  | s :: rest, added => by
    by_cases hc : (s.date == date && s.status == SignupStatus.signedUp
        && !(added.contains s.volunteerId)) = true
    · cases hfind : volunteers.find? (fun v => v.id == s.volunteerId) with
      | none =>
        rw [signupEntriesAux_cons_true_none hc hfind]
        exact signupEntriesAux_ids_nodup
      | some v =>
        rw [signupEntriesAux_cons_true_some hc hfind]
        have hnotin : s.volunteerId ∉ added := by
          simp only [Bool.and_eq_true, Bool.not_eq_true', List.contains, List.elem_eq_mem,
            decide_eq_false_iff_not] at hc
          exact hc.2
        have hvid : v.id = s.volunteerId := by
          have := List.find?_some hfind
          simpa [beq_iff_eq] using this
        obtain ⟨ihnodup, ihfresh⟩ :=
          @signupEntriesAux_ids_nodup date volunteers rest (added ++ [v.id])
        constructor
        · rw [List.map_cons]
          refine List.nodup_cons.mpr ⟨?_, ihnodup⟩
          intro hmem
          exact ihfresh _ hmem (List.mem_append.mpr (Or.inr (List.mem_singleton.mpr rfl)))
        · intro x hx
          rw [List.map_cons] at hx
          rcases List.mem_cons.mp hx with hx | hx
          · rw [hx, hvid]; exact hnotin
          · intro hxadded
            exact ihfresh x hx (List.mem_append.mpr (Or.inl hxadded))
    · rw [signupEntriesAux_cons_false hc]
      exact signupEntriesAux_ids_nodup

theorem recurringEntries_ids_eq (date : DateYMD) (dayOfWeek : PantryDay)
    (volunteers : List Volunteer) (allSignups : List VolunteerSignup) :
    (recurringEntries date dayOfWeek volunteers allSignups).map (fun e => e.volunteer.id)
      = (volunteers.filter (recurringCond date dayOfWeek allSignups)).map
          (fun v => v.id) := by
  rw [recurringEntries, List.map_map]
  rfl

theorem scheduleEntries_ids_nodup (date : DateYMD) (dayOfWeek : PantryDay)
    (volunteers : List Volunteer) (allSignups : List VolunteerSignup)
    (hids : (volunteers.map (fun v => v.id)).Nodup) :
    ((scheduleEntries date dayOfWeek volunteers allSignups).map
      (fun e => e.volunteer.id)).Nodup := by
  rw [scheduleEntries, List.map_append]
  have hrecs : ((recurringEntries date dayOfWeek volunteers allSignups).map
      (fun e => e.volunteer.id)).Nodup := by
    rw [recurringEntries_ids_eq]
    exact List.Nodup.sublist (List.Sublist.map _ (List.filter_sublist volunteers)) hids
  obtain ⟨hauxnodup, hauxfresh⟩ := @signupEntriesAux_ids_nodup date volunteers allSignups
    ((recurringEntries date dayOfWeek volunteers allSignups).map (fun e => e.volunteer.id))
  exact List.Nodup.append hrecs hauxnodup (List.Disjoint.symm hauxfresh)

/-- C2 (amended): for inputs whose volunteer ids are distinct (they are
database primary keys), the result of `getVolunteersForDate` contains each
volunteer id at most once; and a volunteer who matches a recurring pattern for
D, has a `signed-up` record for D, and has no `cancelled` record for D,
appears exactly once, with `source = recurring`. -/
theorem C2_no_duplicates (cmp : String → String → Ordering) (date : DateYMD)
    (dow : PantryDay) (volunteers : List Volunteer) (signups : List VolunteerSignup)
    (hids : (volunteers.map (fun v => v.id)).Nodup) :
    ((getVolunteersForDate cmp date dow volunteers signups).map
      (fun e => e.volunteer.id)).Nodup
    ∧ ∀ V ∈ volunteers,
        matchesRecurringSlot V.recurringSlots V.recurringDays date dow = true →
        (∃ s ∈ signups, s.volunteerId = V.id ∧ s.date = date
          ∧ s.status = SignupStatus.signedUp) →
        (∀ s ∈ signups, s.volunteerId = V.id → s.date = date →
          s.status ≠ SignupStatus.cancelled) →
        ∃ e ∈ getVolunteersForDate cmp date dow volunteers signups,
          e.volunteer = V ∧ e.source = Source.recurring
          ∧ ∀ e' ∈ getVolunteersForDate cmp date dow volunteers signups,
              e'.volunteer.id = V.id → e' = e := by
  have hperm : List.Perm (getVolunteersForDate cmp date dow volunteers signups)
      (scheduleEntries date dow volunteers signups) :=
    List.mergeSort_perm _ _
  have hnodup : ((getVolunteersForDate cmp date dow volunteers signups).map
      (fun e => e.volunteer.id)).Nodup :=
    ((hperm.map _).nodup_iff).mpr (scheduleEntries_ids_nodup date dow volunteers signups hids)
  refine ⟨hnodup, ?_⟩
  intro V hV hmatch _hsigned hnocancel
  have hnotc : V.id ∉ cancelledIdsFor date signups := by
    intro hc
    obtain ⟨s, hs, hsid, hsdate, hsstatus⟩ := mem_cancelledIdsFor.mp hc
    exact hnocancel s hs hsid hsdate hsstatus
  have hmem : ({ volunteer := V, source := Source.recurring } : ScheduledVolunteer)
      ∈ getVolunteersForDate cmp date dow volunteers signups := by
    rw [mem_getVolunteersForDate]
    exact List.mem_append.mpr (Or.inl (mem_recurringEntries.mpr ⟨V, hV, hmatch, hnotc, rfl⟩))
  refine ⟨_, hmem, rfl, rfl, ?_⟩
  intro e' he' hid
  exact List.inj_on_of_nodup_map hnodup he' hmem hid

/-- C2's "in particular" clause is false as stated: when both a `cancelled` and
a `signed-up` record exist for the same (volunteer, date), the volunteer's one
entry carries `source = signup`, not `recurring`. -/
theorem C2_counterexample :
    matchesRecurringSlot (["every-Monday"] : List String) ([] : List PantryDay)
        ⟨2026, 3, 2⟩ PantryDay.Monday = true
    ∧ (∃ s ∈ ([⟨"s3", "b", ⟨2026, 3, 2⟩, PantryDay.Monday, none, SignupStatus.cancelled, "t1"⟩,
          ⟨"s4", "b", ⟨2026, 3, 2⟩, PantryDay.Monday, none, SignupStatus.signedUp, "t2"⟩] :
            List VolunteerSignup),
        s.volunteerId = "b" ∧ s.date = ⟨2026, 3, 2⟩ ∧ s.status = SignupStatus.signedUp)
    ∧ ¬ ∃ e ∈ getVolunteersForDate lenCmp ⟨2026, 3, 2⟩ PantryDay.Monday
        [⟨"b", "Beth", "Brown", [], ["every-Monday"], "t0"⟩]
        [⟨"s3", "b", ⟨2026, 3, 2⟩, PantryDay.Monday, none, SignupStatus.cancelled, "t1"⟩,
         ⟨"s4", "b", ⟨2026, 3, 2⟩, PantryDay.Monday, none, SignupStatus.signedUp, "t2"⟩],
        e.volunteer.id = "b" ∧ e.source = Source.recurring := by
  refine ⟨by decide, by decide, ?_⟩
  unfold getVolunteersForDate
  rw [show scheduleEntries ⟨2026, 3, 2⟩ PantryDay.Monday
      [⟨"b", "Beth", "Brown", [], ["every-Monday"], "t0"⟩]
      [⟨"s3", "b", ⟨2026, 3, 2⟩, PantryDay.Monday, none, SignupStatus.cancelled, "t1"⟩,
       ⟨"s4", "b", ⟨2026, 3, 2⟩, PantryDay.Monday, none, SignupStatus.signedUp, "t2"⟩]
      = [{ volunteer := ⟨"b", "Beth", "Brown", [], ["every-Monday"], "t0"⟩,
           source := Source.signup, signupId := some "s4", role := none }] from by decide]
  rw [List.mergeSort_singleton]
  decide

/-- C2 witness: a volunteer both recurring-matched and explicitly signed up
(with no cancellation) appears exactly once, as `recurring`. -/
theorem C2_witness :
    ((getVolunteersForDate lenCmp ⟨2026, 2, 16⟩ PantryDay.Monday
        [⟨"a", "Ann", "Ames", [], ["every-Monday"], "t0"⟩]
        [⟨"s2", "a", ⟨2026, 2, 16⟩, PantryDay.Monday, some "Setup", SignupStatus.signedUp, "t2"⟩]).map
      (fun e => e.volunteer.id)).Nodup
    ∧ ∃ e ∈ getVolunteersForDate lenCmp ⟨2026, 2, 16⟩ PantryDay.Monday
        [⟨"a", "Ann", "Ames", [], ["every-Monday"], "t0"⟩]
        [⟨"s2", "a", ⟨2026, 2, 16⟩, PantryDay.Monday, some "Setup", SignupStatus.signedUp, "t2"⟩],
        e.volunteer = ⟨"a", "Ann", "Ames", [], ["every-Monday"], "t0"⟩
          ∧ e.source = Source.recurring := by
  have h := C2_no_duplicates lenCmp ⟨2026, 2, 16⟩ PantryDay.Monday
    [⟨"a", "Ann", "Ames", [], ["every-Monday"], "t0"⟩]
    [⟨"s2", "a", ⟨2026, 2, 16⟩, PantryDay.Monday, some "Setup", SignupStatus.signedUp, "t2"⟩]
    (by decide)
  obtain ⟨e, he, hev, hsrc, -⟩ := h.2 ⟨"a", "Ann", "Ames", [], ["every-Monday"], "t0"⟩
    (by decide) (by decide) (by decide) (by decide)
  exact ⟨h.1, e, he, hev, hsrc⟩

/-! ### C3: pattern-matching contract -/

/-- C3: `matchesRecurringSlot` matches iff — when `recurringSlots` is
non-empty — the date's ordinal slot or the weekday's `every-` slot is listed
(`recurringDays` being ignored entirely in that branch); otherwise, when
`recurringDays` is non-empty, iff the weekday is listed; otherwise never. -/
theorem C3_pattern_matching_contract (V : Volunteer) (d : DateYMD) (w : PantryDay) :
    matchesRecurringSlot V.recurringSlots V.recurringDays d w = true ↔
      (V.recurringSlots ≠ []
        ∧ (getRecurringSlot d ∈ V.recurringSlots
            ∨ ("every-" ++ w.name) ∈ V.recurringSlots))
      ∨ (V.recurringSlots = [] ∧ V.recurringDays ≠ [] ∧ w ∈ V.recurringDays) := by
  by_cases hs : V.recurringSlots = []
  · by_cases hd : V.recurringDays = []
    · simp [matchesRecurringSlot, hs, hd]
    · have hlen : 0 < V.recurringDays.length := List.length_pos.mpr hd
      simp [matchesRecurringSlot, hs, hd, hlen, List.contains, List.elem_eq_mem]
  · have hlen : 0 < V.recurringSlots.length := List.length_pos.mpr hs
    simp [matchesRecurringSlot, hs, hlen, List.contains, List.elem_eq_mem]

/-! ### C4: orphan tolerance / total resolution -/

/-- C4: `getVolunteersForDate` is a total function, every entry it returns
carries a volunteer of the input roster (the join), and hence a `signed-up`
record whose `volunteerId` matches no volunteer contributes no entry; an empty
result is an ordinary value. -/
theorem C4_orphan_tolerance (cmp : String → String → Ordering) (date : DateYMD)
    (dow : PantryDay) (volunteers : List Volunteer) (signups : List VolunteerSignup) :
    (∀ e ∈ getVolunteersForDate cmp date dow volunteers signups, e.volunteer ∈ volunteers)
    ∧ ∀ vid, vid ∉ volunteers.map (fun v => v.id) →
        ∀ e ∈ getVolunteersForDate cmp date dow volunteers signups,
          e.volunteer.id ≠ vid := by
  have hbase : ∀ e ∈ getVolunteersForDate cmp date dow volunteers signups,
      e.volunteer ∈ volunteers := by
    intro e he
    rw [mem_getVolunteersForDate] at he
    rcases List.mem_append.mp he with hrec | haux
    · obtain ⟨v, hv, -, -, hev⟩ := mem_recurringEntries.mp hrec
      rw [hev]
      exact hv
    · exact (of_mem_signupEntriesAux haux).2.1
  refine ⟨hbase, ?_⟩
  intro vid hvid e he hev
  exact hvid (List.mem_map.mpr ⟨e.volunteer, hbase e he, hev⟩)

/-- C4 witness: a `signed-up` record for the unknown id "ghost" contributes no
entry; with an empty roster the schedule resolves to the empty list. -/
theorem C4_witness :
    "ghost" ∉ ([⟨"a", "Ann", "Ames", [], ["every-Monday"], "t0"⟩] :
      List Volunteer).map (fun v => v.id)
    ∧ ∀ e ∈ getVolunteersForDate lenCmp ⟨2026, 2, 16⟩ PantryDay.Monday
        [⟨"a", "Ann", "Ames", [], ["every-Monday"], "t0"⟩]
        [⟨"s5", "ghost", ⟨2026, 2, 16⟩, PantryDay.Monday, none, SignupStatus.signedUp, "t1"⟩],
        e.volunteer.id ≠ "ghost" :=
  ⟨by decide,
    (C4_orphan_tolerance lenCmp ⟨2026, 2, 16⟩ PantryDay.Monday
      [⟨"a", "Ann", "Ames", [], ["every-Monday"], "t0"⟩]
      [⟨"s5", "ghost", ⟨2026, 2, 16⟩, PantryDay.Monday, none, SignupStatus.signedUp, "t1"⟩]).2
      "ghost" (by decide)⟩

/-! ### C5: ordinal and slot computation -/

/-- C5: for a calendar day-of-month in 1..31, `getOrdinalWeek` is exactly the
ceiling of dayOfMonth / 7 (characterized both via `Nat.ceilDiv` and by the
defining inequalities) and lies in 1..5; day-of-month 16 gives 3, and the
concrete slots of 2026-02-02 and 2026-02-23 are "1st-Monday" and
"4th-Monday". -/
theorem C5_ordinal_slot (d : DateYMD) (h1 : 1 ≤ d.day) (h2 : d.day ≤ 31) :
    getOrdinalWeek d = CeilDiv.ceilDiv d.day (7 : Nat)
    ∧ d.day ≤ 7 * getOrdinalWeek d
    ∧ 7 * getOrdinalWeek d < d.day + 7
    ∧ 1 ≤ getOrdinalWeek d ∧ getOrdinalWeek d ≤ 5
    ∧ getOrdinalWeek ⟨2026, 2, 16⟩ = 3
    ∧ getRecurringSlot ⟨2026, 2, 2⟩ = "1st-Monday"
    ∧ getRecurringSlot ⟨2026, 2, 23⟩ = "4th-Monday" := by
  refine ⟨?_, ?_, ?_, ?_, ?_, by decide, by decide, by decide⟩
  · rw [Nat.ceilDiv_eq_add_pred_div]
    show (d.day + 6) / 7 = (d.day + 7 - 1) / 7
    omega
  · unfold getOrdinalWeek; omega
  · unfold getOrdinalWeek; omega
  · unfold getOrdinalWeek; omega
  · unfold getOrdinalWeek; omega

/-- C5 witness: the bounds hold at day-of-month 16 (2026-02-16). -/
theorem C5_witness :
    1 ≤ (16 : Nat) ∧ (16 : Nat) ≤ 31 ∧ getOrdinalWeek ⟨2026, 2, 16⟩ = 3
      ∧ getOrdinalWeek ⟨2026, 2, 16⟩ = CeilDiv.ceilDiv (16 : Nat) (7 : Nat) :=
  ⟨by decide, by decide, by decide,
    (C5_ordinal_slot ⟨2026, 2, 16⟩ (by decide) (by decide)).1⟩

/-! ### C6: every-slot subsumption -/

/-- C6: on any Monday date, a volunteer with `recurringSlots = ["every-Monday"]`
matches regardless of the date's ordinal, and agrees with a volunteer listing
all five ordinal Monday slots. -/
theorem C6_every_slot_subsumption (d : DateYMD) (V1 V2 : Volunteer)
    (hmon : dayName d = "Monday") (h1 : 1 ≤ d.day) (h2 : d.day ≤ 31)
    (hs1 : V1.recurringSlots = ["every-Monday"])
    (hs2 : V2.recurringSlots
      = ["1st-Monday", "2nd-Monday", "3rd-Monday", "4th-Monday", "5th-Monday"]) :
    matchesRecurringSlot V1.recurringSlots V1.recurringDays d PantryDay.Monday = true
    ∧ matchesRecurringSlot V2.recurringSlots V2.recurringDays d PantryDay.Monday
        = matchesRecurringSlot V1.recurringSlots V1.recurringDays d PantryDay.Monday := by
  have hv1 : matchesRecurringSlot V1.recurringSlots V1.recurringDays d PantryDay.Monday
      = true := by
    rw [hs1]
    simp [matchesRecurringSlot, PantryDay.name]
  have hord : getOrdinalWeek d = 1 ∨ getOrdinalWeek d = 2 ∨ getOrdinalWeek d = 3
      ∨ getOrdinalWeek d = 4 ∨ getOrdinalWeek d = 5 := by
    unfold getOrdinalWeek; omega
  have hslot : getRecurringSlot d
      ∈ ["1st-Monday", "2nd-Monday", "3rd-Monday", "4th-Monday", "5th-Monday"] := by
    unfold getRecurringSlot
    rw [hmon]
    rcases hord with h | h | h | h | h <;> rw [h] <;> decide
  have hv2 : matchesRecurringSlot V2.recurringSlots V2.recurringDays d PantryDay.Monday
      = true := by
    rw [hs2]
    simp [matchesRecurringSlot, hslot]
  exact ⟨hv1, by rw [hv1, hv2]⟩

/-- C6 witness: at 2026-02-16 (a 3rd Monday) both pattern forms match. -/
theorem C6_witness :
    matchesRecurringSlot ["every-Monday"] [] ⟨2026, 2, 16⟩ PantryDay.Monday = true
    ∧ matchesRecurringSlot
        ["1st-Monday", "2nd-Monday", "3rd-Monday", "4th-Monday", "5th-Monday"] []
        ⟨2026, 2, 16⟩ PantryDay.Monday
      = matchesRecurringSlot ["every-Monday"] [] ⟨2026, 2, 16⟩ PantryDay.Monday :=
  C6_every_slot_subsumption ⟨2026, 2, 16⟩
    ⟨"a", "Ann", "Ames", [], ["every-Monday"], "t0"⟩
    ⟨"c", "Cal", "Cole", [],
      ["1st-Monday", "2nd-Monday", "3rd-Monday", "4th-Monday", "5th-Monday"], "t0"⟩
    (by decide) (by decide) (by decide) rfl rfl

/-! ### C8: pantry-day predicate -/

/-- C8: `isPantryDay` holds iff the date's weekday number is 1, 5 or 6 —
Monday, Friday or Saturday in the `getDay` numbering (0 = Sunday). This is the
current `isPantryDay`; an earlier snapshot of dateHelpers.ts still in the tree
omits Saturday, but it lacks `matchesRecurringSlot`/`formatSlot` that the
schedule imports, so it cannot be the live module. -/
theorem C8_pantry_day (d : DateYMD) :
    isPantryDay d = true
      ↔ dayOfWeekNum d = 1 ∨ dayOfWeekNum d = 5 ∨ dayOfWeekNum d = 6 := by
  have h7 : dayOfWeekNum d < 7 := Nat.mod_lt _ (by omega)
  unfold isPantryDay dayName
  interval_cases h : dayOfWeekNum d <;> simp

/-! ### C9: compound-key uniqueness preserved by the ledger mutations -/

theorem keyUnique_updateStatus {l : List VolunteerSignup} {recId : String}
    {st : SignupStatus} (h : KeyUnique l) : KeyUnique (updateStatus l recId st) := by
  rw [KeyUnique, updateStatus, List.pairwise_map]
  refine h.imp ?_
  intro a b hab
  by_cases ha : (a.id == recId) = true <;> by_cases hb : (b.id == recId) = true <;>
    simp [ha, hb] <;> exact fun h1 h2 => hab ⟨h1, h2⟩

theorem keyUnique_insert {l : List VolunteerSignup} {vid : String} {date : DateYMD}
    (h : KeyUnique l) (hnone : findByKey l vid date = none)
    (rec : VolunteerSignup) (hrecv : rec.volunteerId = vid) (hrecd : rec.date = date) :
    KeyUnique (l ++ [rec]) := by
  rw [KeyUnique, List.pairwise_append]
  refine ⟨h, List.pairwise_singleton _ _, ?_⟩
  intro a ha b hb
  rw [List.mem_singleton] at hb
  subst hb
  rw [findByKey, List.find?_eq_none] at hnone
  have := hnone a ha
  simp only [Bool.and_eq_true, beq_iff_eq] at this
  rw [hrecv, hrecd]
  exact fun hk => this ⟨hk.1, hk.2⟩

/-- C9: both ledger mutations — signing a volunteer up (`handleSignup`) and
excusing a recurring volunteer (`excuseRecurring`) — look up the existing
record by the compound key (volunteerId, date), update its status in place
when found and insert only when none exists, so each preserves the invariant
"at most one signup record per (volunteerId, date)". -/
theorem C9_upsert_preserves_key_uniqueness (l : List VolunteerSignup)
    (h : KeyUnique l) (vid : String) (date : DateYMD) (dow : PantryDay)
    (role : Option String) (newId newId2 : String) (ts ts2 : String) :
    KeyUnique (handleSignupLedger l vid date dow role newId ts)
    ∧ KeyUnique (excuseRecurringLedger l vid date dow newId2 ts2) := by
  constructor
  · rw [handleSignupLedger]
    cases hfind : findByKey l vid date with
    | some existing => exact keyUnique_updateStatus h
    | none => exact keyUnique_insert h hfind _ rfl rfl
  · rw [excuseRecurringLedger]
    cases hfind : findByKey l vid date with
    | some existing => exact keyUnique_updateStatus h
    | none => exact keyUnique_insert h hfind _ rfl rfl

/-- C9 witness: on a one-record ledger both mutations preserve compound-key
uniqueness, in both the update path (same key) and the insert path (new key). -/
theorem C9_witness :
    KeyUnique ([⟨"s1", "a", ⟨2026, 2, 16⟩, PantryDay.Monday, none,
        SignupStatus.cancelled, "t1"⟩] : List VolunteerSignup)
    ∧ KeyUnique (handleSignupLedger
        [⟨"s1", "a", ⟨2026, 2, 16⟩, PantryDay.Monday, none, SignupStatus.cancelled, "t1"⟩]
        "a" ⟨2026, 2, 16⟩ PantryDay.Monday none "s9" "t9")
    ∧ KeyUnique (excuseRecurringLedger
        [⟨"s1", "a", ⟨2026, 2, 16⟩, PantryDay.Monday, none, SignupStatus.cancelled, "t1"⟩]
        "z" ⟨2026, 2, 23⟩ PantryDay.Monday "s8" "t8") := by
  have h1 : KeyUnique ([⟨"s1", "a", ⟨2026, 2, 16⟩, PantryDay.Monday, none,
      SignupStatus.cancelled, "t1"⟩] : List VolunteerSignup) := by
    rw [KeyUnique]
    exact List.pairwise_singleton _ _
  refine ⟨h1, ?_, ?_⟩
  · exact (C9_upsert_preserves_key_uniqueness _ h1 "a" ⟨2026, 2, 16⟩ PantryDay.Monday
      none "s9" "s8" "t9" "t8").1
  · exact (C9_upsert_preserves_key_uniqueness _ h1 "z" ⟨2026, 2, 23⟩ PantryDay.Monday
      none "s9" "s8" "t9" "t8").2

/-! ### C10: calendar count versus schedule length -/

theorem foldl_setAdd_eq (date : DateYMD) (dow : PantryDay)
    (signups : List VolunteerSignup) :
    ∀ (vols : List Volunteer) (acc : List String),
      (acc ++ (vols.filter (recurringCond date dow signups)).map
        (fun v => v.id)).Nodup →
      vols.foldl (fun acc v =>
          if recurringCond date dow signups v then setAdd acc v.id else acc) acc
        = acc ++ (vols.filter (recurringCond date dow signups)).map (fun v => v.id)
  | [], acc, _ => by simp
  | v :: rest, acc, h => by
    rw [List.foldl_cons]
    by_cases hv : recurringCond date dow signups v = true
    · rw [if_pos hv]
      rw [List.filter_cons_of_pos hv] at h ⊢
      rw [List.map_cons] at h ⊢
      have hnotin : v.id ∉ acc := by
        rw [List.nodup_append] at h
        intro hmem
        exact h.2.2 hmem (List.mem_cons_self _ _)
      have hset : setAdd acc v.id = acc ++ [v.id] := by
        rw [setAdd, if_neg]
        simp only [List.contains, List.elem_eq_mem, decide_eq_true_eq]
        exact hnotin
      rw [hset]
      have h' : ((acc ++ [v.id]) ++ (rest.filter (recurringCond date dow signups)).map
          (fun v => v.id)).Nodup := by
        simpa [List.append_assoc] using h
      rw [foldl_setAdd_eq date dow signups rest (acc ++ [v.id]) h']
      simp [List.append_assoc]
    · rw [if_neg hv]
      rw [List.filter_cons_of_neg hv] at h ⊢
      exact foldl_setAdd_eq date dow signups rest acc h

theorem countSignupAux_cons_true {date : DateYMD} {s : VolunteerSignup}
    {rest : List VolunteerSignup} {added : List String}
    (hc : (s.date == date && s.status == SignupStatus.signedUp
      && !(added.contains s.volunteerId)) = true) :
    countSignupAux date (s :: rest) added
      = countSignupAux date rest (added ++ [s.volunteerId]) := by
  rw [countSignupAux, if_pos hc]

theorem countSignupAux_cons_false {date : DateYMD} {s : VolunteerSignup}
    {rest : List VolunteerSignup} {added : List String}
    (hc : ¬ (s.date == date && s.status == SignupStatus.signedUp
      && !(added.contains s.volunteerId)) = true) :
    countSignupAux date (s :: rest) added = countSignupAux date rest added := by
  rw [countSignupAux, if_neg hc]

theorem countSignupAux_length (date : DateYMD) (volunteers : List Volunteer) :
    ∀ (ss : List VolunteerSignup) (added : List String),
      (∀ s ∈ ss, s.date = date → s.status = SignupStatus.signedUp →
        ∃ v ∈ volunteers, v.id = s.volunteerId) →
      (countSignupAux date ss added).length
        = added.length + (signupEntriesAux date volunteers ss added).length
  | [], added, _ => by simp [countSignupAux, signupEntriesAux]
  | s :: rest, added, hjoin => by
    have hrest : ∀ s' ∈ rest, s'.date = date → s'.status = SignupStatus.signedUp →
        ∃ v ∈ volunteers, v.id = s'.volunteerId :=
      fun s' hs' => hjoin s' (List.mem_cons_of_mem s hs')
    by_cases hc : (s.date == date && s.status == SignupStatus.signedUp
        && !(added.contains s.volunteerId)) = true
    · have hck : s.date = date ∧ s.status = SignupStatus.signedUp := by
        simp only [Bool.and_eq_true, beq_iff_eq] at hc
        exact ⟨hc.1.1, hc.1.2⟩
      obtain ⟨v0, hv0, hv0id⟩ := hjoin s (List.mem_cons_self s rest) hck.1 hck.2
      have hissome : (volunteers.find? (fun v => v.id == s.volunteerId)).isSome :=
        List.find?_isSome.mpr ⟨v0, hv0, by simp [beq_iff_eq, hv0id]⟩
      obtain ⟨v, hfind⟩ := Option.isSome_iff_exists.mp hissome
      have hvid : v.id = s.volunteerId := by
        have := List.find?_some hfind
        simpa [beq_iff_eq] using this
      rw [countSignupAux_cons_true hc, signupEntriesAux_cons_true_some hc hfind]
      rw [List.length_cons, hvid]
      rw [countSignupAux_length date volunteers rest (added ++ [s.volunteerId]) hrest]
      simp
      omega
    · rw [countSignupAux_cons_false hc, signupEntriesAux_cons_false hc]
      exact countSignupAux_length date volunteers rest added hrest

/-- C10 (amended): when volunteer ids are distinct (they are primary keys) and
every `signed-up` record for the date joins to an existing volunteer, the
calendar's `getVolunteerCount` equals the length of the schedule's
`getVolunteersForDate`; an orphaned `signed-up` record breaks the equality,
because the calendar counts it while the schedule's join drops it. -/
theorem C10_calendar_count_agrees (cmp : String → String → Ordering)
    (date : DateYMD) (dow : PantryDay) (volunteers : List Volunteer)
    (signups : List VolunteerSignup)
    (hids : (volunteers.map (fun v => v.id)).Nodup)
    (hjoin : ∀ s ∈ signups, s.date = date → s.status = SignupStatus.signedUp →
      ∃ v ∈ volunteers, v.id = s.volunteerId) :
    getVolunteerCount date dow volunteers signups
      = (getVolunteersForDate cmp date dow volunteers signups).length := by
  have hfilterids : ((volunteers.filter (recurringCond date dow signups)).map
      (fun v => v.id)).Nodup :=
    List.Nodup.sublist (List.Sublist.map _ (List.filter_sublist volunteers)) hids
  have hinit : recurringIdSet date dow volunteers signups
      = (volunteers.filter (recurringCond date dow signups)).map (fun v => v.id) := by
    rw [recurringIdSet]
    rw [foldl_setAdd_eq date dow signups volunteers [] (by simpa using hfilterids)]
    simp
  rw [getVolunteersForDate, List.length_mergeSort, scheduleEntries, List.length_append]
  rw [getVolunteerCount, hinit, ← recurringEntries_ids_eq]
  rw [countSignupAux_length date volunteers signups _ hjoin]
  rw [recurringEntries_ids_eq, List.length_map, recurringEntries, List.length_map]

/-- C10 as stated is false: a `signed-up` record whose volunteerId matches no
volunteer is counted by the calendar view but dropped by the schedule view's
join. -/
theorem C10_counterexample :
    getVolunteerCount ⟨2026, 3, 9⟩ PantryDay.Monday []
        [⟨"s6", "ghost", ⟨2026, 3, 9⟩, PantryDay.Monday, none, SignupStatus.signedUp, "t1"⟩]
      = 1
    ∧ (getVolunteersForDate lenCmp ⟨2026, 3, 9⟩ PantryDay.Monday []
        [⟨"s6", "ghost", ⟨2026, 3, 9⟩, PantryDay.Monday, none, SignupStatus.signedUp, "t1"⟩]).length
      = 0 := by
  constructor
  · decide
  · unfold getVolunteersForDate
    rw [show scheduleEntries ⟨2026, 3, 9⟩ PantryDay.Monday []
        [⟨"s6", "ghost", ⟨2026, 3, 9⟩, PantryDay.Monday, none, SignupStatus.signedUp, "t1"⟩]
        = [] from by decide]
    rw [List.mergeSort_nil]
    rfl

/-- C10 witness: with a well-joined ledger (a recurring volunteer plus a
one-off signup of an existing volunteer) the two views agree. -/
theorem C10_witness :
    getVolunteerCount ⟨2026, 2, 16⟩ PantryDay.Monday
        [⟨"a", "Ann", "Ames", [], ["every-Monday"], "t0"⟩,
         ⟨"b", "Beth", "Brown", [], [], "t0"⟩]
        [⟨"s7", "b", ⟨2026, 2, 16⟩, PantryDay.Monday, some "Setup", SignupStatus.signedUp, "t1"⟩]
      = (getVolunteersForDate lenCmp ⟨2026, 2, 16⟩ PantryDay.Monday
        [⟨"a", "Ann", "Ames", [], ["every-Monday"], "t0"⟩,
         ⟨"b", "Beth", "Brown", [], [], "t0"⟩]
        [⟨"s7", "b", ⟨2026, 2, 16⟩, PantryDay.Monday, some "Setup", SignupStatus.signedUp, "t1"⟩]).length :=
  C10_calendar_count_agrees lenCmp ⟨2026, 2, 16⟩ PantryDay.Monday
    [⟨"a", "Ann", "Ames", [], ["every-Monday"], "t0"⟩,
     ⟨"b", "Beth", "Brown", [], [], "t0"⟩]
    [⟨"s7", "b", ⟨2026, 2, 16⟩, PantryDay.Monday, some "Setup", SignupStatus.signedUp, "t1"⟩]
    (by decide) (by decide)

/-! ### C7: result ordering -/

theorem ordering_beq_gt_eq_false_iff {o : Ordering} :
    (o == Ordering.gt) = false ↔ o ≠ Ordering.gt := by
  cases o <;> decide

theorem lenCmp_trans (a b c : String) (h1 : (!(lenCmp a b == Ordering.gt)) = true)
    (h2 : (!(lenCmp b c == Ordering.gt)) = true) :
    (!(lenCmp a c == Ordering.gt)) = true := by
  simp only [lenCmp, Bool.not_eq_true', ordering_beq_gt_eq_false_iff, ne_eq,
    Nat.compare_eq_gt] at h1 h2 ⊢
  omega

theorem lenCmp_total (a b : String) :
    ((!(lenCmp a b == Ordering.gt)) || (!(lenCmp b a == Ordering.gt))) = true := by
  simp only [lenCmp, Bool.or_eq_true, Bool.not_eq_true', ordering_beq_gt_eq_false_iff,
    ne_eq, Nat.compare_eq_gt]
  omega

theorem lenCmp_refl (a : String) : lenCmp a a = Ordering.eq := by
  simp [lenCmp, Nat.compare_eq_eq]

/-- C7: under any consistent comparator (transitive and total in the
non-`gt` sense, and `eq` on equal strings — the contract `localeCompare`
satisfies), the resolver's output is sorted ascending by last name; the sort is
stable, so the entries with any fixed last name appear exactly as they were
inserted, and among such ties every recurring-sourced entry precedes every
signup-sourced entry, because step 2 runs before step 3. -/
theorem C7_result_ordering (cmp : String → String → Ordering) (date : DateYMD)
    (dow : PantryDay) (volunteers : List Volunteer) (signups : List VolunteerSignup)
    (htrans : ∀ a b c : String, (!(cmp a b == Ordering.gt)) = true →
      (!(cmp b c == Ordering.gt)) = true → (!(cmp a c == Ordering.gt)) = true)
    (htotal : ∀ a b : String,
      ((!(cmp a b == Ordering.gt)) || (!(cmp b a == Ordering.gt))) = true)
    (hrefl : ∀ a : String, cmp a a = Ordering.eq) :
    (getVolunteersForDate cmp date dow volunteers signups).Pairwise
      (fun a b => (!(cmp a.volunteer.lastName b.volunteer.lastName == Ordering.gt)) = true)
    ∧ (∀ name : String,
        (getVolunteersForDate cmp date dow volunteers signups).filter
            (fun e => e.volunteer.lastName == name)
          = (scheduleEntries date dow volunteers signups).filter
              (fun e => e.volunteer.lastName == name))
    ∧ (∀ name : String, ∃ r s,
        (scheduleEntries date dow volunteers signups).filter
            (fun e => e.volunteer.lastName == name) = r ++ s
        ∧ (∀ e ∈ r, e.source = Source.recurring)
        ∧ (∀ e ∈ s, e.source = Source.signup)) := by
  have htransE : ∀ a b c : ScheduledVolunteer,
      (!(cmp a.volunteer.lastName b.volunteer.lastName == Ordering.gt)) = true →
      (!(cmp b.volunteer.lastName c.volunteer.lastName == Ordering.gt)) = true →
      (!(cmp a.volunteer.lastName c.volunteer.lastName == Ordering.gt)) = true :=
    fun _ _ _ h1 h2 => htrans _ _ _ h1 h2
  have htotalE : ∀ a b : ScheduledVolunteer,
      ((!(cmp a.volunteer.lastName b.volunteer.lastName == Ordering.gt))
        || (!(cmp b.volunteer.lastName a.volunteer.lastName == Ordering.gt))) = true :=
    fun _ _ => htotal _ _
  refine ⟨?_, ?_, ?_⟩
  · rw [getVolunteersForDate]
    exact List.sorted_mergeSort htransE htotalE _
  · intro name
    have hlast : ∀ e ∈ (scheduleEntries date dow volunteers signups).filter
        (fun e => e.volunteer.lastName == name), e.volunteer.lastName = name := by
      intro e he
      have := (List.mem_filter.mp he).2
      simpa using this
    have hpw : ((scheduleEntries date dow volunteers signups).filter
        (fun e => e.volunteer.lastName == name)).Pairwise
        (fun a b =>
          (!(cmp a.volunteer.lastName b.volunteer.lastName == Ordering.gt)) = true) := by
      apply List.pairwise_of_forall_mem_list
      intro a ha b hb
      rw [hlast a ha, hlast b hb, hrefl]
      rfl
    have hsub : List.Sublist
        ((scheduleEntries date dow volunteers signups).filter
          (fun e => e.volunteer.lastName == name))
        (getVolunteersForDate cmp date dow volunteers signups) := by
      rw [getVolunteersForDate]
      exact List.sublist_mergeSort htransE htotalE hpw (List.filter_sublist _)
    have hsub2 := hsub.filter (fun e => e.volunteer.lastName == name)
    rw [List.filter_eq_self.mpr (fun a ha => (List.mem_filter.mp ha).2)] at hsub2
    have hlen : ((getVolunteersForDate cmp date dow volunteers signups).filter
          (fun e => e.volunteer.lastName == name)).length
        = ((scheduleEntries date dow volunteers signups).filter
          (fun e => e.volunteer.lastName == name)).length :=
      ((List.mergeSort_perm _ _).filter _).length_eq
    exact (hsub2.eq_of_length hlen.symm).symm
  · intro name
    refine ⟨(recurringEntries date dow volunteers signups).filter
        (fun e => e.volunteer.lastName == name),
      (signupEntriesAux date volunteers signups
          ((recurringEntries date dow volunteers signups).map
            (fun e => e.volunteer.id))).filter
        (fun e => e.volunteer.lastName == name), ?_, ?_, ?_⟩
    · simp only [scheduleEntries, List.filter_append]
    · intro e he
      obtain ⟨v, -, -, -, hev⟩ := mem_recurringEntries.mp (List.mem_of_mem_filter he)
      rw [hev]
    · intro e he
      exact (of_mem_signupEntriesAux (List.mem_of_mem_filter he)).1

/-- C7 witness: with the consistent comparator `lenCmp` on a concrete roster,
the resolver's output is sorted, stable on ties, and recurring entries precede
signup entries among ties. -/
theorem C7_witness :
    (getVolunteersForDate lenCmp ⟨2026, 2, 16⟩ PantryDay.Monday
        [⟨"a", "Ann", "Ames", [], ["every-Monday"], "t0"⟩,
         ⟨"w", "Wes", "Wu", [], [], "t0"⟩]
        [⟨"s7", "w", ⟨2026, 2, 16⟩, PantryDay.Monday, none, SignupStatus.signedUp, "t1"⟩]).Pairwise
      (fun a b => (!(lenCmp a.volunteer.lastName b.volunteer.lastName == Ordering.gt)) = true)
    ∧ (∀ name : String,
        (getVolunteersForDate lenCmp ⟨2026, 2, 16⟩ PantryDay.Monday
            [⟨"a", "Ann", "Ames", [], ["every-Monday"], "t0"⟩,
             ⟨"w", "Wes", "Wu", [], [], "t0"⟩]
            [⟨"s7", "w", ⟨2026, 2, 16⟩, PantryDay.Monday, none, SignupStatus.signedUp, "t1"⟩]).filter
            (fun e => e.volunteer.lastName == name)
          = (scheduleEntries ⟨2026, 2, 16⟩ PantryDay.Monday
              [⟨"a", "Ann", "Ames", [], ["every-Monday"], "t0"⟩,
               ⟨"w", "Wes", "Wu", [], [], "t0"⟩]
              [⟨"s7", "w", ⟨2026, 2, 16⟩, PantryDay.Monday, none, SignupStatus.signedUp, "t1"⟩]).filter
              (fun e => e.volunteer.lastName == name))
    ∧ (∀ name : String, ∃ r s,
        (scheduleEntries ⟨2026, 2, 16⟩ PantryDay.Monday
            [⟨"a", "Ann", "Ames", [], ["every-Monday"], "t0"⟩,
             ⟨"w", "Wes", "Wu", [], [], "t0"⟩]
            [⟨"s7", "w", ⟨2026, 2, 16⟩, PantryDay.Monday, none, SignupStatus.signedUp, "t1"⟩]).filter
            (fun e => e.volunteer.lastName == name) = r ++ s
        ∧ (∀ e ∈ r, e.source = Source.recurring)
        ∧ (∀ e ∈ s, e.source = Source.signup)) :=
  C7_result_ordering lenCmp ⟨2026, 2, 16⟩ PantryDay.Monday
    [⟨"a", "Ann", "Ames", [], ["every-Monday"], "t0"⟩,
     ⟨"w", "Wes", "Wu", [], [], "t0"⟩]
    [⟨"s7", "w", ⟨2026, 2, 16⟩, PantryDay.Monday, none, SignupStatus.signedUp, "t1"⟩]
    lenCmp_trans lenCmp_total lenCmp_refl

example : dayName ⟨2026, 2, 2⟩ = "Monday" := by decide
example : dayName ⟨2026, 2, 16⟩ = "Monday" := by decide
example : dayName ⟨2026, 2, 23⟩ = "Monday" := by decide
example : dayName ⟨2026, 2, 20⟩ = "Friday" := by decide
example : getRecurringSlot ⟨2026, 2, 2⟩ = "1st-Monday" := by decide
example : getRecurringSlot ⟨2026, 2, 23⟩ = "4th-Monday" := by decide
example : matchesRecurringSlot ["every-Monday"] [] ⟨2026, 2, 16⟩ .Monday = true := by decide
example : isPantryDay ⟨2026, 2, 21⟩ = true := by decide
example : isPantryDay ⟨2026, 2, 17⟩ = false := by decide

end Pantry
